import Mathlib

/-!
Verification of the request-orchestration layer of the OpenMetadata VS Code
extension: the `OpenMetadataAPI` client (rate limiting, TTL response cache,
error classification), the `TokenManager` credential lifecycle, the
`RateLimiter`, and the `TaskTreeDataProvider` aggregator.

The TypeScript sources are embedded shallowly: JavaScript `Map`s become
association lists with first-match lookup, `Date.now()` timestamps become
explicit `Nat` parameters, asynchronous calls become explicit outcome
parameters (the value the awaited call would produce), and `throw` becomes
`Except`.  Payloads carried by the HTTP layer are opaque to the
orchestration logic under study and are modelled as `String`.
-/

set_option autoImplicit false

namespace OpenMetadata

universe u

/-! ## Association-list model of JavaScript `Map` -/

/-- First-match lookup, the semantics of `Map.get` (a `Map` never holds
duplicate keys, so first-match agrees with it on every state built by
`setG`/`delG` from the empty map). -/
def lookupG {β : Type u} : List (String × β) → String → Option β
  | [], _ => none
  | (k, v) :: rest, key => if k = key then some v else lookupG rest key

/-- `Map.set`: replace the existing entry for the key, else append. -/
def setG {β : Type u} : List (String × β) → String → β → List (String × β)
  | [], key, v => [(key, v)]
  | (k, w) :: rest, key, v =>
    if k = key then (k, v) :: rest else (k, w) :: setG rest key v

/-- `Map.delete`: remove the entry for the key (every pair with that key,
which on `Map`-like states is the single one). -/
def delG {β : Type u} (m : List (String × β)) (key : String) : List (String × β) :=
  m.filter (fun e => decide (¬ e.1 = key))

/-- `Map.has`. -/
def containsG {β : Type u} (m : List (String × β)) (key : String) : Bool :=
  (lookupG m key).isSome

theorem lookupG_setG {β : Type u} (m : List (String × β)) (key k : String) (v : β) :
    lookupG (setG m key v) k = if key = k then some v else lookupG m k := by
  induction m with
  | nil => simp [setG, lookupG]
  | cons e rest ih =>
    obtain ⟨k0, w⟩ := e
    by_cases h0 : k0 = key
    · subst h0
      by_cases h1 : k0 = k <;> simp [setG, lookupG, h1]
    · by_cases h1 : k0 = k
      · subst h1
        have : ¬ key = k0 := fun h => h0 h.symm
        simp [setG, lookupG, h0, this]
      · simp [setG, lookupG, h0, h1, ih]

theorem lookupG_delG {β : Type u} (m : List (String × β)) (key k : String) :
    lookupG (delG m key) k = if key = k then none else lookupG m k := by
  induction m with
  | nil => simp [delG, lookupG]
  | cons e rest ih =>
    obtain ⟨k0, w⟩ := e
    by_cases h0 : k0 = key
    · subst h0
      have h2 : delG ((k0, w) :: rest) k0 = delG rest k0 := by
        simp [delG, List.filter_cons]
      rw [h2, ih]
      by_cases h1 : k0 = k <;> simp [h1, lookupG]
    · have h2 : delG ((k0, w) :: rest) key = (k0, w) :: delG rest key := by
        simp [delG, List.filter_cons, h0]
      rw [h2]
      by_cases h1 : k0 = k
      · subst h1
        have hk : ¬ key = k0 := fun h => h0 h.symm
        simp [lookupG, hk]
      · simp [lookupG, h1, ih]

/-! ## Response cache (`OpenMetadataAPI.cachedRequest`)

Source: `private async cachedRequest(key, requestFn)` — returns the cached
value when an entry exists whose age `Date.now() - timestamp` is below
`CACHE_TTL`; otherwise invokes the producer, stores the result with the
current timestamp and returns it.  A producer that throws propagates and
stores nothing. -/

/-- `private readonly CACHE_TTL = 5 * 60 * 1000` (milliseconds). -/
def CACHE_TTL : Nat := 5 * 60 * 1000

structure CacheEntry (α : Type u) where
  data : α
  timestamp : Nat
  deriving DecidableEq

/-- `private cache: Map<string, { data, timestamp }>`. -/
abbrev CacheMap (α : Type u) : Type u := List (String × CacheEntry α)

/-- Result of one `cachedRequest` call: the value produced or error thrown,
the cache afterwards, and whether the producer was invoked. -/
structure CRResult (ε : Type) (α : Type) where
  result : Except ε α
  cache : CacheMap α
  invoked : Bool

/-- The producer is passed as the outcome it would yield when invoked
(`requestFn` in the source); `invoked` records whether it was consulted. -/
def cachedRequest {ε : Type} {α : Type} (cache : CacheMap α) (now : Nat)
    (key : String) (producer : Except ε α) : CRResult ε α :=
  match lookupG cache key with
  | some e =>
    if now - e.timestamp < CACHE_TTL then
      ⟨.ok e.data, cache, false⟩
    else
      match producer with
      | .ok v => ⟨.ok v, setG cache key ⟨v, now⟩, true⟩
      | .error x => ⟨.error x, cache, true⟩
  | none =>
    match producer with
    | .ok v => ⟨.ok v, setG cache key ⟨v, now⟩, true⟩
    | .error x => ⟨.error x, cache, true⟩

/-- An entry for `key` exists and its age is below the TTL (the branch
condition of `cachedRequest`). -/
def isFresh {α : Type} (cache : CacheMap α) (key : String) (now : Nat) : Bool :=
  match lookupG cache key with
  | some e => decide (now - e.timestamp < CACHE_TTL)
  | none => false

theorem cachedRequest_of_fresh {ε α : Type} (cache : CacheMap α) (now : Nat)
    (key : String) (producer : Except ε α)
    (h : isFresh cache key now = true) :
    ∃ e, lookupG cache key = some e ∧
      cachedRequest cache now key producer = ⟨.ok e.data, cache, false⟩ := by
  unfold isFresh at h
  unfold cachedRequest
  cases hl : lookupG cache key with
  | none => rw [hl] at h; simp at h
  | some e =>
    rw [hl] at h
    simp only [decide_eq_true_eq] at h
    exact ⟨e, rfl, by simp [h]⟩

theorem cachedRequest_of_stale {ε α : Type} (cache : CacheMap α) (now : Nat)
    (key : String) (producer : Except ε α)
    (h : isFresh cache key now = false) :
    cachedRequest cache now key producer =
      match producer with
      | .ok v => ⟨.ok v, setG cache key ⟨v, now⟩, true⟩
      | .error x => ⟨.error x, cache, true⟩ := by
  unfold isFresh at h
  unfold cachedRequest
  cases hl : lookupG cache key with
  | none => rfl
  | some e =>
    rw [hl] at h
    simp only [decide_eq_false_iff_not] at h
    simp [h]

/-- Freshness of an entry is preserved by any other `cachedRequest` issued
at the same instant: a fresh key is hit (cache unchanged) and any other
key is at most overwritten with the current timestamp. -/
theorem isFresh_cachedRequest {ε α : Type} (cache : CacheMap α) (now : Nat)
    (key k : String) (producer : Except ε α)
    (h : isFresh cache k now = true) :
    isFresh (cachedRequest cache now key producer).cache k now = true := by
  by_cases hk : key = k
  · subst hk
    obtain ⟨e, _, heq⟩ := cachedRequest_of_fresh cache now key producer h
    rw [heq]
    exact h
  · unfold cachedRequest
    cases hl : lookupG cache key with
    | some e =>
      by_cases hfr : now - e.timestamp < CACHE_TTL
      · simpa [hfr] using h
      · cases producer with
        | ok v =>
          simp only [hfr, if_false]
          unfold isFresh at h ⊢
          rw [lookupG_setG, if_neg hk]
          exact h
        | error x => simpa [hfr] using h
    | none =>
      cases producer with
      | ok v =>
        unfold isFresh at h ⊢
        simp only
        rw [lookupG_setG, if_neg hk]
        exact h
      | error x => simpa using h

/-- A `cachedRequest` never removes a key: it either leaves the cache
unchanged or `Map.set`s one key. -/
theorem containsG_cachedRequest {ε α : Type} (cache : CacheMap α) (now : Nat)
    (key k : String) (producer : Except ε α)
    (h : (lookupG cache k).isSome = true) :
    (lookupG (cachedRequest cache now key producer).cache k).isSome = true := by
  unfold cachedRequest
  cases hl : lookupG cache key with
  | some e =>
    by_cases hfr : now - e.timestamp < CACHE_TTL
    · simpa [hfr] using h
    · cases producer with
      | ok v =>
        simp only [hfr, if_false]
        rw [lookupG_setG]
        by_cases hk : key = k <;> simp [hk, h]
      | error x => simpa [hfr] using h
  | none =>
    cases producer with
    | ok v =>
      simp only
      rw [lookupG_setG]
      by_cases hk : key = k <;> simp [hk, h]
    | error x => simpa using h

/-! ## Error classification (`OpenMetadataAPIError`, `OpenMetadataAPI.handleError`)

Source: `handleError` inspects the axios failure.  A failure carrying a
server response yields an `OpenMetadataAPIError` with that status code and
a hint appended for 401/404; a failure with a request but no response
yields the "No response received" error without a status code; anything
else yields the "Unknown error occurred" error. -/

/-- `class OpenMetadataAPIError extends Error { message; statusCode? }`. -/
structure OpenMetadataAPIError where
  message : String
  statusCode : Option Nat
  deriving DecidableEq

/-- The shape of the caught value, as `handleError` discriminates it:
an axios error with a `response`, an axios error with only a `request`
(nothing received), or a non-axios value. -/
inductive FailKind
  | response (status : Nat) (statusText : String)
  | noResponse
  | nonAxios
  deriving DecidableEq

def handleError : FailKind → OpenMetadataAPIError
  | .response s txt =>
    ⟨"Error " ++ toString s ++ ": " ++ txt ++
      (if s = 401 then ". Please check your authentication token."
       else if s = 404 then ". The requested resource was not found."
       else ""),
     some s⟩
  | .noResponse => ⟨"OpenMetadata API Error: No response received", none⟩
  | .nonAxios => ⟨"OpenMetadata API Error: Unknown error occurred", none⟩

/-- Modelled from the spec: the spec's error taxonomy (§7) names distinct
classes `AuthOrNotFoundError` (4xx with status), `TransportError` (no
response) and `ApiError` (generic); the source has the single class
`OpenMetadataAPIError`, so the spec classes are read as a classification
of its instances, for comparison with `handleError`. -/
inductive SpecErrKind
  | authOrNotFound
  | transport
  | generic
  deriving DecidableEq

def specErrorKind (e : OpenMetadataAPIError) : SpecErrKind :=
  match e.statusCode with
  | some s => if 400 ≤ s ∧ s ≤ 499 then .authOrNotFound else .generic
  | none =>
    if e.message = "OpenMetadata API Error: No response received" then .transport
    else .generic

/-- `throw new OpenMetadataAPIError('Not authenticated. Please authenticate first.')`. -/
def notAuthenticatedError : OpenMetadataAPIError :=
  ⟨"Not authenticated. Please authenticate first.", none⟩

/-! ## The API client (`OpenMetadataAPI`)

The class holds `token` (set to `''` by the constructor, to the probed
value by `authenticate`) and the response `cache`.  The duplicated method
definitions in the source resolve to the later, cached versions
(`getTasks` at the bottom of the file, etc.).  HTTP payloads are opaque
here and modelled as `String`; the outcome of the network call a request
would perform is passed in as a `NetOutcome`. -/

/-- Opaque stand-in for the JSON payloads (`any` in the source). -/
abbrev Payload := String

/-- Outcome of the axios call inside `request`. -/
inductive NetOutcome
  | ok (payload : Payload)
  | fail (kind : FailKind)
  deriving DecidableEq

structure ApiState where
  token : String
  cache : CacheMap Payload
  deriving DecidableEq

/-- `new OpenMetadataAPI(baseUrl, webAppUrl)`: `token = ''`, empty cache. -/
def apiInit : ApiState := ⟨"", []⟩

/-- `isAuthenticated(): boolean { return !!this.token; }`. -/
def isAuthenticated (st : ApiState) : Bool := decide (¬ st.token = "")

/-- Observable cost of one call: RateLimiter permits taken
(`rateLimiter.wait()` runs once per `request`) and whether a network
attempt was made. -/
structure Effects where
  permits : Nat
  network : Bool
  deriving DecidableEq

/-- `private async request(method, endpoint, data?)`: awaits the rate
limiter, performs the call, returns the payload or throws the classified
error.  The source does not await the promise at some call sites; that
changes only the shape of the resolved payload, not the control flow or
effects studied here. -/
def request (net : NetOutcome) : Except OpenMetadataAPIError Payload × Effects :=
  match net with
  | .ok p => (.ok p, ⟨1, true⟩)
  | .fail k => (.error (handleError k), ⟨1, true⟩)

/-- The cache key of the cached `getTasks`:
`` `tasks_${limit}_${after || ''}` ``. -/
def tasksKey (limit : Nat) (after : Option String) : String :=
  "tasks_" ++ toString limit ++ "_" ++ (match after with | some a => a | none => "")

/-- The producer closure of the cached `getTasks` (lines 347–355): throws
`NotAuthenticatedError` when no token is stored, else issues the request.
(`parseResponse` reshapes the payload; payloads are opaque here.) -/
def getTasksProducer (token : String) (net : NetOutcome) :
    Except OpenMetadataAPIError Payload × Effects :=
  if token = "" then (.error notAuthenticatedError, ⟨0, false⟩)
  else request net

/-- Result of one `getTasks` call. -/
structure CallResult where
  result : Except OpenMetadataAPIError Payload
  state : ApiState
  effects : Effects
  invoked : Bool

/-- The cached `getTasks(limit = 20, after?)` (lines 345–356): builds the
key and goes through `cachedRequest`; the producer's effects are charged
only when it is invoked. -/
def getTasks (st : ApiState) (now : Nat) (limit : Nat) (after : Option String)
    (net : NetOutcome) : CallResult :=
  let key := tasksKey limit after
  let prod := getTasksProducer st.token net
  let r := cachedRequest st.cache now key prod.1
  ⟨r.result, { st with cache := r.cache },
   if r.invoked then prod.2 else ⟨0, false⟩, r.invoked⟩

/-- State effect of one `cachedRequest`-wrapped read. -/
def cachedStep (st : ApiState) (now : Nat) (key : String)
    (producer : Except OpenMetadataAPIError Payload) : ApiState :=
  { st with cache := (cachedRequest st.cache now key producer).cache }

/-- Producer of the cached reads that perform no authentication check
(`getTaskDetails`, `getAsset`, `getAssetLineage`, `searchAssets`,
`getDataQualityTestResults`): plain `request` with error classification. -/
def plainProducer (net : NetOutcome) : Except OpenMetadataAPIError Payload :=
  (request net).1

/-- Producer of the cached `getIngestionBotToken`: auth check, then the
request; a success payload lacking `botToken.token` (modelled by
`extracted = none`, extraction of the token from the opaque payload)
raises the invalid-format error which the surrounding catch re-wraps via
`handleError` into the unknown error. -/
def botTokenProducer (token : String) (net : NetOutcome)
    (extracted : Option String) : Except OpenMetadataAPIError Payload :=
  if token = "" then .error notAuthenticatedError
  else
    match net with
    | .ok _ =>
      match extracted with
      | some t => .ok t
      | none => .error (handleError .nonAxios)
    | .fail k => .error (handleError k)

/-- `${startTs}_${endTs}` with `undefined` rendered as in template
literals. -/
def optTs : Option Nat → String
  | some n => toString n
  | none => "undefined"

/-- The public operations of `OpenMetadataAPI` (the later definitions win
for duplicated names).  Each network-dependent operation carries the
outcome its request would produce; `getAssetDetails` carries the outcomes
of its nested cached reads (`getAsset`, and `getTableDDL` when the asset
is a table) and its shaped content, since content shaping is opaque here. -/
inductive ApiOp
  | authenticate (jwtToken : String) (probeOk : Bool)
  | getTasks (limit : Nat) (after : Option String) (net : NetOutcome)
  | getTaskDetails (taskId : String) (net : NetOutcome)
  | getAsset (assetId : String) (net : NetOutcome)
  | getAssetLineage (assetId : String) (upstreamDepth downstreamDepth : Nat) (net : NetOutcome)
  | searchAssets (query index : String) (fromPos size : Nat) (net : NetOutcome)
  | getDataQualityTestResults (testCaseId : String) (startTs endTs : Option Nat) (net : NetOutcome)
  | getIngestionBotToken (net : NetOutcome) (extracted : Option String)
  | getAssetDetails (assetId : String) (netAsset : NetOutcome) (isTable : Bool)
      (netDdl : NetOutcome) (details : Except OpenMetadataAPIError Payload)
  | updateTask (taskId : String) (net : NetOutcome)
  | getTaskParentAsset (taskId : String) (net : NetOutcome)

/-- State effect of one public operation issued at instant `now`.
`authenticate` stores the probed token on a 2xx probe and otherwise
throws leaving the state unchanged; `updateTask` and `getTaskParentAsset`
are uncached requests that never touch the cache; every cached read goes
through `cachedStep` on its derived key. -/
def applyOp (op : ApiOp) (now : Nat) (st : ApiState) : ApiState :=
  match op with
  | .authenticate jwt probeOk => if probeOk then { st with token := jwt } else st
  | .getTasks limit after net => (getTasks st now limit after net).state
  | .getTaskDetails taskId net =>
    cachedStep st now ("task_" ++ taskId) (plainProducer net)
  | .getAsset assetId net =>
    cachedStep st now ("asset_" ++ assetId) (plainProducer net)
  | .getAssetLineage assetId u d net =>
    cachedStep st now ("asset_lineage_" ++ assetId ++ "_" ++ toString u ++ "_" ++ toString d)
      (plainProducer net)
  | .searchAssets q idx fromPos size net =>
    cachedStep st now ("search_" ++ q ++ "_" ++ idx ++ "_" ++ toString fromPos ++ "_" ++ toString size)
      (plainProducer net)
  | .getDataQualityTestResults tc sts ets net =>
    cachedStep st now ("data_quality_" ++ tc ++ "_" ++ optTs sts ++ "_" ++ optTs ets)
      (plainProducer net)
  | .getIngestionBotToken net extracted =>
    cachedStep st now "ingestion_bot_token" (botTokenProducer st.token net extracted)
  | .getAssetDetails assetId netAsset isTable netDdl details =>
    let st1 := cachedStep st now ("asset_" ++ assetId) (plainProducer netAsset)
    let st2 := if isTable then
        cachedStep st1 now ("table_ddl_" ++ assetId) (plainProducer netDdl)
      else st1
    cachedStep st2 now ("asset_details_" ++ assetId) details
  | .updateTask _ _ => st
  | .getTaskParentAsset _ _ => st

/-! ## Credential lifecycle (`TokenManager`)

The secret store (`context.secrets`) holds one string or nothing;
`encryptToken`/`decryptToken` are the identity in the source. -/

/-- `getToken()`: `encryptedToken ? this.decryptToken(encryptedToken) :
undefined` — a stored empty string is falsy and reads back as absent. -/
def getToken : Option String → Option String
  | some s => if s = "" then none else some s
  | none => none

/-- Modelled from the spec: `api.refreshToken(token)` is absent from the
source `OpenMetadataAPI`; per §4.3 a refresh attempt either yields a new
token, signals expiry by yielding no token, or throws on transient
failure.  Its outcome is passed in. -/
abbrev RefreshOutcome := Except Unit (Option String)

/-- `private async refreshToken()` of `TokenManager` (lines 42–58): when a
token is stored, on a thrown error only an error message is shown (the
store is untouched); on a truthy new token it is stored; on a falsy
result the store is cleared. -/
def refreshToken (store : Option String) (outcome : RefreshOutcome) :
    Option String :=
  match getToken store with
  | none => store
  | some _ =>
    match outcome with
    | .error _ => store
    | .ok newToken =>
      match newToken with
      | some t => if t = "" then none else some t
      | none => none

/-! ## `RateLimiter` (webviewProvider.ts, lines 38–71)

`wait()` queues the caller when `running >= maxConcurrent`, else
increments `running` and schedules `release()` after `interval`;
`release()` decrements `running` and resumes the queue head, which then
runs the rest of `wait()` (increment and schedule).  The cooperative
single-threaded execution with zero caller processing time is modelled as
a phase of synchronous `wait()` calls followed by the timer callbacks
firing in their scheduling order (all timers share the one duration
`interval`, so scheduling order is firing order); `timers` counts
scheduled `release` callbacks that have not fired.  No `release` fires
before one `interval` has elapsed, so the state after any prefix of the
issue phase is the state at any instant before the first interval
elapses. -/

structure RLState where
  running : Nat
  queue : List Nat
  timers : Nat
  acquired : List Nat
  deriving DecidableEq

def rlInit : RLState := ⟨0, [], 0, []⟩

/-- One `wait()` call by caller `id`. -/
def waitStep (maxConcurrent : Nat) (s : RLState) (id : Nat) : RLState :=
  if maxConcurrent ≤ s.running then { s with queue := s.queue ++ [id] }
  else { s with running := s.running + 1, timers := s.timers + 1,
                acquired := s.acquired ++ [id] }

/-- One `release()` timer firing: `running--`, and if the queue is
nonempty its head is resumed, finishing its `wait()` (`running++` and a
new timer). -/
def releaseStep (s : RLState) : RLState :=
  match s.queue with
  | [] => { s with running := s.running - 1, timers := s.timers - 1 }
  | id :: rest =>
    { s with running := s.running - 1 + 1, timers := s.timers - 1 + 1,
             queue := rest, acquired := s.acquired ++ [id] }

def issueAll (maxConcurrent : Nat) (ids : List Nat) (s : RLState) : RLState :=
  ids.foldl (waitStep maxConcurrent) s

/-- Fire pending timers until none remain, fuelled by an upper bound on
the number of steps (each step consumes a timer or a queued caller). -/
def drainAux : Nat → RLState → RLState
  | 0, s => s
  | n + 1, s => if s.timers = 0 then s else drainAux n (releaseStep s)

def drain (s : RLState) : RLState := drainAux (s.timers + s.queue.length) s

/-- Issue `wait()` for each caller in order at time zero, then let every
scheduled `release` fire. -/
def runAll (maxConcurrent : Nat) (ids : List Nat) : RLState :=
  drain (issueAll maxConcurrent ids rlInit)

/-! ## Task aggregator (`TaskTreeDataProvider`)

`types.ts` data model (fields not consulted by the aggregator are
omitted), tree items (presentation-only fields — icon, command, tooltip,
accessibility — are omitted; the constructor's
`description || this.taskId` fallback is kept). -/

inductive TaskStatus
  | Open
  | Closed
  deriving DecidableEq

/-- `Project` of types.ts; only `name` is consulted by the aggregator. -/
structure Project where
  id : String
  name : String
  deriving DecidableEq

structure Task where
  id : String
  name : String
  entityId : String
  entityLink : String
  status : TaskStatus
  project : Option Project
  deriving DecidableEq

structure Paging where
  total : Nat
  after : Option String
  before : Option String
  deriving DecidableEq

structure ApiResponse where
  data : List Task
  paging : Option Paging
  deriving DecidableEq

inductive CollapsibleState
  | none
  | collapsed
  | expanded
  deriving DecidableEq

structure TaskTreeItem where
  label : String
  taskId : String
  entityId : String
  entityLink : String
  collapsibleState : CollapsibleState
  contextValue : String
  description : String
  deriving DecidableEq

/-- The `TaskTreeItem` constructor: `this.description = description ||
this.taskId`. -/
def mkTreeItem (label taskId entityId entityLink : String)
    (cs : CollapsibleState) (contextValue : String)
    (description : Option String) : TaskTreeItem :=
  ⟨label, taskId, entityId, entityLink, cs, contextValue,
   match description with
   | some d => if d = "" then taskId else d
   | none => taskId⟩

/-- `task.project?.name || 'Ungrouped'` — an empty project name is falsy
and also falls back to the sentinel. -/
def projectKey (t : Task) : String :=
  match t.project with
  | some p => if p.name = "" then "Ungrouped" else p.name
  | none => "Ungrouped"

/-- One step of `groupTasksByProject`'s loop: `Map` insertion order —
append to the existing bucket in place, else add a new key at the end. -/
def addToGroup (m : List (String × List Task)) (k : String) (t : Task) :
    List (String × List Task) :=
  match m with
  | [] => [(k, [t])]
  | (k0, l) :: rest =>
    if k0 = k then (k0, l ++ [t]) :: rest else (k0, l) :: addToGroup rest k t

/-- `private groupTasksByProject(tasks)`. -/
def groupTasksByProject (tasks : List Task) : List (String × List Task) :=
  tasks.foldl (fun m t => addToGroup m (projectKey t) t) []

def openProjectItem (name : String) (count : Nat) : TaskTreeItem :=
  mkTreeItem name name "" "" .collapsed "project"
    (some ("(" ++ toString count ++ " open)"))

def completedProjectItem (name : String) (count : Nat) : TaskTreeItem :=
  mkTreeItem name name "" "" .collapsed "project"
    (some ("(" ++ toString count ++ " completed)"))

/-- Body of the "Open tasks" loop of `createTreeItems` (lines 157–170):
a project node when the group's `Open` filter is nonempty
(`openTasks.length > 0`). -/
def openMapper (k : String) (l : List Task) : Option TaskTreeItem :=
  if 0 < (l.filter (fun t => decide (t.status = TaskStatus.Open))).length then
    some (openProjectItem k (l.filter (fun t => decide (t.status = TaskStatus.Open))).length)
  else none

/-- Body of the "Completed tasks" loop of `createTreeItems`
(lines 175–188). -/
def completedMapper (k : String) (l : List Task) : Option TaskTreeItem :=
  if 0 < (l.filter (fun t => decide (t.status = TaskStatus.Closed))).length then
    some (completedProjectItem k
      (l.filter (fun t => decide (t.status = TaskStatus.Closed))).length)
  else none

/-- The "Open tasks" loop of `createTreeItems`. -/
def openProjectNodes (groups : List (String × List Task)) : List TaskTreeItem :=
  groups.filterMap (fun g => openMapper g.1 g.2)

/-- The "Completed tasks" loop of `createTreeItems`. -/
def completedProjectNodes (groups : List (String × List Task)) : List TaskTreeItem :=
  groups.filterMap (fun g => completedMapper g.1 g.2)

/-- `private taskCache: Map<string, Task[]>` and `private nextPageTokens:
Map<string, string>`. -/
structure ProviderState where
  taskCache : List (String × List Task)
  nextPageTokens : List (String × String)
  deriving DecidableEq

def providerInit : ProviderState := ⟨[], []⟩

def loadMoreItem (key : String) : TaskTreeItem :=
  mkTreeItem "Load More..." key "" "" .none "loadMore" none

/-- `private createTreeItems(key)`: the flat list — open header, open
project nodes, completed header, completed project nodes, and the
"Load More..." node exactly when a next-page token is present. -/
def createTreeItems (st : ProviderState) (key : String) : List TaskTreeItem :=
  let tasks := (lookupG st.taskCache key).getD []
  let groups := groupTasksByProject tasks
  mkTreeItem "Open Tasks" "open-tasks" "" "" .expanded "category" none
    :: (openProjectNodes groups
      ++ mkTreeItem "Completed Tasks" "completed-tasks" "" "" .collapsed "category" none
      :: (completedProjectNodes groups
        ++ (if containsG st.nextPageTokens key then [loadMoreItem key] else [])))

/-- `response.paging?.after`. -/
def pagingAfter (r : ApiResponse) : Option String :=
  match r.paging with
  | some pg => pg.after
  | none => none

/-- `private cacheTasksAndUpdateNextPageToken(key, response)`: append the
page to the bucket; `if (response.paging?.after)` store it (an empty
cursor string is falsy), else delete the token. -/
def cacheTasksAndUpdateNextPageToken (st : ProviderState) (key : String)
    (response : ApiResponse) : ProviderState :=
  let tasks := (lookupG st.taskCache key).getD []
  let cache2 := setG st.taskCache key (tasks ++ response.data)
  match pagingAfter response with
  | some a =>
    if a = "" then ⟨cache2, delG st.nextPageTokens key⟩
    else ⟨cache2, setG st.nextPageTokens key a⟩
  | none => ⟨cache2, delG st.nextPageTokens key⟩

/-- The cursor retained by `cacheTasksAndUpdateNextPageToken`: the page's
`after` when present and truthy. -/
def effAfter (r : ApiResponse) : Option String :=
  match pagingAfter r with
  | some a => if a = "" then none else some a
  | none => none

def taskLeafItem (t : Task) : TaskTreeItem :=
  mkTreeItem t.name t.id t.entityId t.entityLink .none
    (if t.status = TaskStatus.Closed then "completedTask" else "openTask") none

/-- `private getTasksForProject(projectName)`: reads the `'root'` bucket
and filters by project key only — the task's own status picks the context
value of each leaf. -/
def getTasksForProject (st : ProviderState) (projectName : String) :
    List TaskTreeItem :=
  let tasks := (lookupG st.taskCache "root").getD []
  (tasks.filter (fun t => decide (projectKey t = projectName))).map taskLeafItem

/-- Result of one tree-expansion request: the children, the provider
state afterwards, and how many pages were fetched from the API. -/
structure ExpandResult where
  items : List TaskTreeItem
  state : ProviderState
  fetches : Nat
  deriving DecidableEq

/-- `private loadMoreTasks(key)`: with a truthy stored token, fetch one
page (`api.getTasks(20, token)`, outcome passed in), append it and
recompute; a caught failure degrades to `[]` leaving the state intact;
with no token, `[]` without fetching. -/
def loadMoreTasks (st : ProviderState) (key : String)
    (page : Except OpenMetadataAPIError ApiResponse) : ExpandResult :=
  match lookupG st.nextPageTokens key with
  | some tok =>
    if tok = "" then ⟨[], st, 0⟩
    else
      match page with
      | .ok response =>
        let st2 := cacheTasksAndUpdateNextPageToken st key response
        ⟨createTreeItems st2 key, st2, 1⟩
      | .error _ => ⟨[], st, 1⟩
  | none => ⟨[], st, 0⟩

/-- `private getRootItems()`: fetches `api.getTasks(1)` (outcome passed
in) and returns the three category nodes — without storing anything in
`taskCache` or `nextPageTokens`; a failure degrades to `[]`. -/
def getRootItems (response : Except OpenMetadataAPIError ApiResponse) :
    List TaskTreeItem :=
  match response with
  | .ok r =>
    let totalTasks := match r.paging with | some pg => pg.total | none => 0
    [mkTreeItem "All Tasks" "all-tasks" "" "" .collapsed "category"
       (some ("(" ++ toString totalTasks ++ " tasks)")),
     mkTreeItem "Open Tasks" "open-tasks" "" "" .collapsed "category" none,
     mkTreeItem "Completed Tasks" "completed-tasks" "" "" .collapsed "category" none]
  | .error _ => []

/-- `getChildren(element)` for a non-root element: dispatch on
`contextValue` — `'project'` and `'loadMore'` are handled, everything
else (including the `'category'` nodes) falls through to `[]`.  The root
call (`element` undefined) is `getRootItems`. -/
def getChildren (st : ProviderState) (element : TaskTreeItem)
    (page : Except OpenMetadataAPIError ApiResponse) : ExpandResult :=
  if element.contextValue = "project" then ⟨getTasksForProject st element.taskId, st, 0⟩
  else if element.contextValue = "loadMore" then loadMoreTasks st element.taskId page
  else ⟨[], st, 0⟩

/-! ## Theorems -/

/-- Claim C3: for every key and producer, two `cachedRequest` calls whose
timestamps differ by less than the 5-minute TTL invoke the producer
exactly once and both return the first stored value; a further call whose
age since the stored timestamp is at least the TTL invokes the producer
again and stores the new result with the current timestamp.  (The first
call is made with no entry for the key, stores `v1` at `t0`; the second
at `t1` is a hit; the third at `t2` is a miss.) -/
theorem cachedRequest_ttl_window {α : Type} (c0 : CacheMap α) (k : String)
    (t0 t1 t2 : Nat) (v1 v2 : α)
    (h0 : lookupG c0 k = none) (h01 : t1 - t0 < CACHE_TTL)
    (h02 : CACHE_TTL ≤ t2 - t0) :
    cachedRequest (ε := Unit) c0 t0 k (.ok v1) =
      ⟨.ok v1, setG c0 k ⟨v1, t0⟩, true⟩ ∧
    cachedRequest (ε := Unit) (setG c0 k ⟨v1, t0⟩) t1 k (.ok v2) =
      ⟨.ok v1, setG c0 k ⟨v1, t0⟩, false⟩ ∧
    cachedRequest (ε := Unit) (setG c0 k ⟨v1, t0⟩) t2 k (.ok v2) =
      ⟨.ok v2, setG (setG c0 k ⟨v1, t0⟩) k ⟨v2, t2⟩, true⟩ ∧
    lookupG (setG (setG c0 k ⟨v1, t0⟩) k ⟨v2, t2⟩) k = some ⟨v2, t2⟩ := by
  have hk : lookupG (setG c0 k ⟨v1, t0⟩) k = some ⟨v1, t0⟩ := by
    rw [lookupG_setG]; simp
  refine ⟨?_, ?_, ?_, ?_⟩
  · unfold cachedRequest; rw [h0]
  · unfold cachedRequest; rw [hk]; simp [h01]
  · unfold cachedRequest; rw [hk]
    have : ¬ t2 - t0 < CACHE_TTL := by omega
    simp [this]
  · rw [lookupG_setG]; simp

theorem cachedRequest_ttl_window_witness :
    cachedRequest (ε := Unit) ([] : CacheMap Nat) 0 "k" (.ok 1) =
      ⟨.ok 1, setG [] "k" ⟨1, 0⟩, true⟩ ∧
    cachedRequest (ε := Unit) (setG ([] : CacheMap Nat) "k" ⟨1, 0⟩) 299000 "k" (.ok 2) =
      ⟨.ok 1, setG [] "k" ⟨1, 0⟩, false⟩ ∧
    (cachedRequest (ε := Unit) (setG ([] : CacheMap Nat) "k" ⟨1, 0⟩) 301000 "k" (.ok 2)).invoked
      = true := by
  have h := cachedRequest_ttl_window ([] : CacheMap Nat) "k" 0 299000 301000 1 2
    rfl (by decide) (by decide)
  exact ⟨h.1, h.2.1, by rw [h.2.2.1]⟩

/-- Claim C5: a server response with a status in 400–499 is raised as an
error carrying that status (classified `authOrNotFound`, never
`generic`), with the token hint for 401 and the not-found hint for 404; a
dropped connection is raised as the "No response received" error with no
status code (classified `transport`, never `authOrNotFound`). -/
theorem handleError_classification (s : Nat) (txt : String)
    (h4 : 400 ≤ s) (h5 : s ≤ 499) :
    (handleError (.response s txt)).statusCode = some s ∧
    specErrorKind (handleError (.response s txt)) = .authOrNotFound ∧
    (handleError (.response 401 txt)).message =
      "Error 401: " ++ txt ++ ". Please check your authentication token." ∧
    (handleError (.response 404 txt)).message =
      "Error 404: " ++ txt ++ ". The requested resource was not found." ∧
    (handleError .noResponse).message = "OpenMetadata API Error: No response received" ∧
    (handleError .noResponse).statusCode = none ∧
    specErrorKind (handleError .noResponse) = .transport ∧
    ¬ specErrorKind (handleError .noResponse) = .authOrNotFound := by
  refine ⟨rfl, ?_, ?_, ?_, rfl, rfl, by decide, by decide⟩
  · simp [specErrorKind, handleError, h4, h5]
  · show ((("Error " ++ toString (401 : Nat)) ++ ": ") ++ txt) ++ _ = _
    rw [show (("Error " ++ toString (401 : Nat)) ++ ": ") = "Error 401: " from rfl]
    simp
  · show ((("Error " ++ toString (404 : Nat)) ++ ": ") ++ txt) ++ _ = _
    rw [show (("Error " ++ toString (404 : Nat)) ++ ": ") = "Error 404: " from rfl]
    simp

theorem handleError_classification_witness :
    (handleError (.response 401 "Unauthorized")).statusCode = some 401 ∧
    specErrorKind (handleError (.response 401 "Unauthorized")) = .authOrNotFound ∧
    (handleError (.response 401 "Unauthorized")).message =
      "Error 401: " ++ "Unauthorized" ++ ". Please check your authentication token." ∧
    specErrorKind (handleError .noResponse) = .transport := by
  have h := handleError_classification 401 "Unauthorized" (by decide) (by decide)
  exact ⟨h.1, h.2.1, h.2.2.1, h.2.2.2.2.2.2.1⟩

/-- Claim C6: with a token stored, a refresh attempt that throws leaves
the store unchanged and `getToken()` still returns the stored token; a
refresh that signals expiry (no new token, or a falsy one) clears the
store so `getToken()` returns absent; a successful refresh replaces the
stored token by the new value. -/
theorem refreshToken_outcomes (store : Option String) (t : String)
    (h : getToken store = some t) :
    refreshToken store (.error ()) = store ∧
    getToken (refreshToken store (.error ())) = some t ∧
    getToken (refreshToken store (.ok none)) = none ∧
    (∀ t2 : String, ¬ t2 = "" → refreshToken store (.ok (some t2)) = some t2) ∧
    getToken (refreshToken store (.ok (some ""))) = none := by
  refine ⟨?_, ?_, ?_, ?_, ?_⟩
  · simp [refreshToken, h]
  · simp [refreshToken, h]
  · have h2 : refreshToken store (.ok none) = none := by
      unfold refreshToken; rw [h]
    rw [h2]; rfl
  · intro t2 ht2; simp [refreshToken, h, ht2]
  · have h2 : refreshToken store (.ok (some "")) = none := by
      unfold refreshToken; rw [h]; rfl
    rw [h2]; rfl

theorem refreshToken_outcomes_witness :
    getToken (refreshToken (some "abc") (.error ())) = some "abc" ∧
    getToken (refreshToken (some "abc") (.ok none)) = none ∧
    refreshToken (some "abc") (.ok (some "xyz")) = some "xyz" := by
  have h := refreshToken_outcomes (some "abc") "abc" rfl
  exact ⟨h.2.1, h.2.2.1, h.2.2.2.1 "xyz" (by decide)⟩

/-! ### `getTasks` behaviour: fast-fail, cache hits, and operation effects -/

/-- Unfolding of `getTasks` with the `let`s eliminated. -/
theorem getTasks_def (st : ApiState) (now limit : Nat) (after : Option String)
    (net : NetOutcome) :
    getTasks st now limit after net =
      ⟨(cachedRequest st.cache now (tasksKey limit after)
          (getTasksProducer st.token net).1).result,
       { st with cache := (cachedRequest st.cache now (tasksKey limit after)
          (getTasksProducer st.token net).1).cache },
       if (cachedRequest st.cache now (tasksKey limit after)
          (getTasksProducer st.token net).1).invoked
         then (getTasksProducer st.token net).2 else ⟨0, false⟩,
       (cachedRequest st.cache now (tasksKey limit after)
          (getTasksProducer st.token net).1).invoked⟩ := rfl

/-- A stale (or absent) entry and a throwing producer: the error
propagates and nothing is stored. -/
theorem cachedRequest_stale_error {ε α : Type} (cache : CacheMap α) (now : Nat)
    (key : String) (x : ε) (h : isFresh cache key now = false) :
    cachedRequest cache now key (.error x) = ⟨.error x, cache, true⟩ := by
  have h2 := cachedRequest_of_stale cache now key (Except.error (α := α) x) h
  simpa using h2

/-- A stale (or absent) entry and a succeeding producer: the value is
stored with the current timestamp. -/
theorem cachedRequest_stale_ok {ε α : Type} (cache : CacheMap α) (now : Nat)
    (key : String) (v : α) (h : isFresh cache key now = false) :
    cachedRequest (ε := ε) cache now key (.ok v) =
      ⟨.ok v, setG cache key ⟨v, now⟩, true⟩ := by
  have h2 := cachedRequest_of_stale cache now key (Except.ok (ε := ε) v) h
  simpa using h2

/-- Helper: a fresh entry makes the cached `getTasks` a pure cache hit —
the producer is not invoked, so neither the authentication check nor the
rate limiter nor the network is reached. -/
theorem getTasks_fresh_hit (st : ApiState) (now limit : Nat)
    (after : Option String) (net : NetOutcome)
    (hf : isFresh st.cache (tasksKey limit after) now = true) :
    ∃ e, lookupG st.cache (tasksKey limit after) = some e ∧
      getTasks st now limit after net = ⟨.ok e.data, st, ⟨0, false⟩, false⟩ := by
  obtain ⟨e, he, heq⟩ := cachedRequest_of_fresh st.cache now (tasksKey limit after)
    (getTasksProducer st.token net).1 hf
  refine ⟨e, he, ?_⟩
  rw [getTasks_def, heq]
  exact rfl

/-- Helper: no classified request failure equals the
not-authenticated error (4xx errors carry a status code; the transport
and unknown messages differ). -/
theorem handleError_ne_notAuth (k : FailKind) :
    ¬ handleError k = notAuthenticatedError := by
  cases k <;> simp [handleError, notAuthenticatedError]

/-- Claim C2 (amended): a `getTasks` call made with no stored credential
and no fresh cache entry for the derived key rejects with the
not-authenticated error, takes no RateLimiter permit, attempts no
network call and leaves the state unchanged. -/
theorem getTasks_unauthenticated_fast_fail (st : ApiState) (now limit : Nat)
    (after : Option String) (net : NetOutcome)
    (htok : st.token = "")
    (hmiss : isFresh st.cache (tasksKey limit after) now = false) :
    (getTasks st now limit after net).result = .error notAuthenticatedError ∧
    (getTasks st now limit after net).effects.permits = 0 ∧
    (getTasks st now limit after net).effects.network = false ∧
    (getTasks st now limit after net).state = st := by
  have hp : getTasksProducer st.token net = (.error notAuthenticatedError, ⟨0, false⟩) := by
    simp [getTasksProducer, htok]
  have heq : getTasks st now limit after net =
      ⟨.error notAuthenticatedError, st, ⟨0, false⟩, true⟩ := by
    rw [getTasks_def, hp]
    simp only
    rw [cachedRequest_stale_error st.cache now (tasksKey limit after)
      notAuthenticatedError hmiss]
    exact rfl
  rw [heq]
  exact ⟨rfl, rfl, rfl, rfl⟩

theorem getTasks_unauthenticated_fast_fail_witness :
    (getTasks apiInit 0 20 none (.ok "payload")).result = .error notAuthenticatedError ∧
    (getTasks apiInit 0 20 none (.ok "payload")).effects.permits = 0 := by
  have h := getTasks_unauthenticated_fast_fail apiInit 0 20 none (.ok "payload")
    rfl (by decide)
  exact ⟨h.1, h.2.1⟩

/-- The state after: `authenticate('valid-token')` succeeding against
the probe endpoint, then an authenticated `getTasks(20)` whose page is
cached. -/
def stSeeded : ApiState :=
  applyOp (.getTasks 20 none (.ok "pageOne")) 0
    (applyOp (.authenticate "valid-token" true) 0 apiInit)

/-- `stSeeded` followed by `authenticate('')` succeeding (the probe
endpoint `system/config/jwks` does not require authentication, so the
probe's 2xx stores the empty string): the client is unauthenticated
again while the task cache is still warm. -/
def stAuthRun : ApiState := applyOp (.authenticate "" true) 0 stSeeded

/-- Claim C2 counterexample: a run of public operations reaches a state
with no stored credential (`token = ''`, `isAuthenticated` false) in
which the paginated task-listing call does not reject at all: it
resolves with the previously cached page, taking no permit — contradicting
"every call made while no credential is stored rejects with the
not-authenticated error". -/
theorem getTasks_unauth_cache_hit_bypass :
    stAuthRun.token = "" ∧
    isAuthenticated stAuthRun = false ∧
    (getTasks stAuthRun 1000 20 none (.ok "pageTwo")).result = .ok "pageOne" ∧
    (getTasks stAuthRun 1000 20 none (.ok "pageTwo")).effects.permits = 0 ∧
    (getTasks stAuthRun 1000 20 none (.ok "pageTwo")).invoked = false := by
  exact ⟨rfl, rfl, rfl, rfl, rfl⟩

/-- Claim C10: the cached task-listing returns a fresh cached payload
without consulting the credential or the rate limiter (zero permits, no
network, producer not invoked, state unchanged); it raises the
not-authenticated error only when the token is empty AND no fresh entry
exists for the derived key; and an unauthenticated caller can indeed
receive data cached by an earlier authenticated call (the `stAuthRun`
run). -/
theorem getTasks_cache_hit_semantics :
    (∀ (st : ApiState) (now limit : Nat) (after : Option String) (net : NetOutcome),
      isFresh st.cache (tasksKey limit after) now = true →
        ∃ e, lookupG st.cache (tasksKey limit after) = some e ∧
          getTasks st now limit after net = ⟨.ok e.data, st, ⟨0, false⟩, false⟩) ∧
    (∀ (st : ApiState) (now limit : Nat) (after : Option String) (net : NetOutcome),
      (getTasks st now limit after net).result = .error notAuthenticatedError →
        st.token = "" ∧ isFresh st.cache (tasksKey limit after) now = false) ∧
    (isAuthenticated stAuthRun = false ∧
      (getTasks stAuthRun 1000 20 none (.ok "pageTwo")).result = .ok "pageOne") := by
  refine ⟨getTasks_fresh_hit, ?_, rfl, rfl⟩
  intro st now limit after net h
  by_cases hf : isFresh st.cache (tasksKey limit after) now = true
  · obtain ⟨e, _, heq⟩ := getTasks_fresh_hit st now limit after net hf
    rw [heq] at h
    exact absurd h (by simp)
  · have hmiss : isFresh st.cache (tasksKey limit after) now = false := by
      simpa using hf
    refine ⟨?_, hmiss⟩
    by_cases ht : st.token = ""
    · exact ht
    · exfalso
      have hres : (getTasks st now limit after net).result =
          (getTasksProducer st.token net).1 := by
        rw [getTasks_def]
        rw [cachedRequest_of_stale st.cache now (tasksKey limit after)
          (getTasksProducer st.token net).1 hmiss]
        cases hp : (getTasksProducer st.token net).1 <;> simp [hp]
      rw [hres] at h
      unfold getTasksProducer at h
      rw [if_neg ht] at h
      cases net with
      | ok p => simp [request] at h
      | fail k =>
        simp [request] at h
        exact handleError_ne_notAuth k h

theorem getTasks_cache_hit_semantics_witness :
    (getTasks ⟨"", [(tasksKey 20 none, ⟨"cachedValue", 0⟩)]⟩ 100 20 none (.ok "newValue")).result
      = .ok "cachedValue" ∧
    (getTasks ⟨"", [(tasksKey 20 none, ⟨"cachedValue", 0⟩)]⟩ 100 20 none (.ok "newValue")).effects.permits
      = 0 := by
  obtain ⟨e, he, heq⟩ := getTasks_cache_hit_semantics.1
    ⟨"", [(tasksKey 20 none, ⟨"cachedValue", 0⟩)]⟩ 100 20 none (.ok "newValue") (by decide)
  have he2 : e = ⟨"cachedValue", 0⟩ := by
    have h0 : lookupG ([(tasksKey 20 none, ⟨"cachedValue", 0⟩)] : CacheMap Payload)
        (tasksKey 20 none) = some ⟨"cachedValue", 0⟩ := by decide
    rw [h0] at he
    exact (Option.some.injEq _ _ ▸ he).symm
  subst he2
  rw [heq]
  exact ⟨rfl, rfl⟩

/-! ### Cache-entry persistence across operations (no invalidate / clearAll) -/

/-- Helper: freshness of an entry is preserved by every public operation
issued at the same instant. -/
theorem isFresh_applyOp (op : ApiOp) (now : Nat) (st : ApiState) (k : String)
    (h : isFresh st.cache k now = true) :
    isFresh (applyOp op now st).cache k now = true := by
  cases op with
  | authenticate jwt probeOk => cases probeOk <;> simpa [applyOp] using h
  | getTasks limit after net =>
    have : (applyOp (.getTasks limit after net) now st).cache =
        (cachedRequest st.cache now (tasksKey limit after)
          (getTasksProducer st.token net).1).cache := rfl
    rw [this]
    exact isFresh_cachedRequest _ _ _ _ _ h
  | getTaskDetails taskId net => exact isFresh_cachedRequest _ _ _ _ _ h
  | getAsset assetId net => exact isFresh_cachedRequest _ _ _ _ _ h
  | getAssetLineage assetId u d net => exact isFresh_cachedRequest _ _ _ _ _ h
  | searchAssets q idx fromPos size net => exact isFresh_cachedRequest _ _ _ _ _ h
  | getDataQualityTestResults tc sts ets net => exact isFresh_cachedRequest _ _ _ _ _ h
  | getIngestionBotToken net extracted => exact isFresh_cachedRequest _ _ _ _ _ h
  | getAssetDetails assetId netAsset isTable netDdl details =>
    show isFresh (cachedStep (if isTable then _ else _) now _ _).cache k now = true
    apply isFresh_cachedRequest
    cases isTable with
    | false => exact isFresh_cachedRequest _ _ _ _ _ h
    | true =>
      simp only [if_true]
      exact isFresh_cachedRequest _ _ _ _ _ (isFresh_cachedRequest _ _ _ _ _ h)
  | updateTask taskId net => exact h
  | getTaskParentAsset taskId net => exact h

/-- Claim C9 counterexample: no public operation of the client, applied
at the same instant, makes the next cached task-listing invoke its
producer again — there is no `invalidate(key)` and no `clearAll()` whose
immediate effect the claim describes; a fresh entry can only lapse by
ageing past the TTL. -/
theorem no_operation_invalidates_fresh_entry :
    ¬ ∃ op : ApiOp,
      (getTasks (applyOp op 0 stSeeded) 0 20 none (.ok "pageTwo")).invoked = true := by
  rintro ⟨op, h⟩
  have hf : isFresh stSeeded.cache (tasksKey 20 none) 0 = true := by decide
  have hf2 := isFresh_applyOp op 0 stSeeded (tasksKey 20 none) hf
  obtain ⟨e, _, heq⟩ := getTasks_fresh_hit (applyOp op 0 stSeeded) 0 20 none (.ok "pageTwo") hf2
  rw [heq] at h
  exact absurd h (by simp)

/-- Claim C9 (amended): the response cache exposes no invalidation
operation — no public operation of the client ever removes a cache
entry; an entry's key, once present, is present after every operation
(entries are only lazily ignored or overwritten on expiry). -/
theorem api_ops_never_remove_cache_entries (op : ApiOp) (now : Nat)
    (st : ApiState) (k : String)
    (h : (lookupG st.cache k).isSome = true) :
    (lookupG (applyOp op now st).cache k).isSome = true := by
  cases op with
  | authenticate jwt probeOk => cases probeOk <;> simpa [applyOp] using h
  | getTasks limit after net =>
    have : (applyOp (.getTasks limit after net) now st).cache =
        (cachedRequest st.cache now (tasksKey limit after)
          (getTasksProducer st.token net).1).cache := rfl
    rw [this]
    exact containsG_cachedRequest _ _ _ _ _ h
  | getTaskDetails taskId net => exact containsG_cachedRequest _ _ _ _ _ h
  | getAsset assetId net => exact containsG_cachedRequest _ _ _ _ _ h
  | getAssetLineage assetId u d net => exact containsG_cachedRequest _ _ _ _ _ h
  | searchAssets q idx fromPos size net => exact containsG_cachedRequest _ _ _ _ _ h
  | getDataQualityTestResults tc sts ets net => exact containsG_cachedRequest _ _ _ _ _ h
  | getIngestionBotToken net extracted => exact containsG_cachedRequest _ _ _ _ _ h
  | getAssetDetails assetId netAsset isTable netDdl details =>
    show (lookupG (cachedStep (if isTable then _ else _) now _ _).cache k).isSome = true
    apply containsG_cachedRequest
    cases isTable with
    | false => exact containsG_cachedRequest _ _ _ _ _ h
    | true =>
      simp only [if_true]
      exact containsG_cachedRequest _ _ _ _ _ (containsG_cachedRequest _ _ _ _ _ h)
  | updateTask taskId net => exact h
  | getTaskParentAsset taskId net => exact h

theorem api_ops_never_remove_cache_entries_witness :
    (lookupG (applyOp (.getAsset "a1" (.ok "assetPayload")) 0 stSeeded).cache
      (tasksKey 20 none)).isSome = true := by
  exact api_ops_never_remove_cache_entries (.getAsset "a1" (.ok "assetPayload")) 0
    stSeeded (tasksKey 20 none) (by decide)

/-! ### RateLimiter -/

/-- Helper: invariant of the issue phase.  Starting from a state where
`timers` mirrors `running`, `running` is within the bound and a nonempty
queue forces `running = maxConcurrent`, issuing any list of `wait()`
calls preserves all three and appends the callers, in order, to
`acquired ++ queue`. -/
theorem issueAll_invariant (maxC : Nat) (ids : List Nat) :
    ∀ s : RLState, s.timers = s.running → s.running ≤ maxC →
      (¬ s.queue = [] → s.running = maxC) →
      (issueAll maxC ids s).acquired ++ (issueAll maxC ids s).queue
          = (s.acquired ++ s.queue) ++ ids ∧
        (issueAll maxC ids s).timers = (issueAll maxC ids s).running ∧
        (issueAll maxC ids s).running ≤ maxC ∧
        (¬ (issueAll maxC ids s).queue = [] → (issueAll maxC ids s).running = maxC) := by
  induction ids with
  | nil => intro s h1 h2 h3; exact ⟨by simp [issueAll], h1, h2, h3⟩
  | cons id rest ih =>
    intro s h1 h2 h3
    have hstep : issueAll maxC (id :: rest) s = issueAll maxC rest (waitStep maxC s id) := rfl
    rw [hstep]
    by_cases hle : maxC ≤ s.running
    · have hrun : s.running = maxC := Nat.le_antisymm h2 hle
      have hw : waitStep maxC s id = { s with queue := s.queue ++ [id] } := by
        simp [waitStep, hle]
      obtain ⟨g1, g2, g3, g4⟩ := ih (waitStep maxC s id)
        (by rw [hw]; exact h1) (by rw [hw]; exact h2)
        (by rw [hw]; intro _; exact hrun)
      refine ⟨?_, g2, g3, g4⟩
      rw [g1, hw]
      simp [List.append_assoc]
    · have hw : waitStep maxC s id =
          { s with running := s.running + 1, timers := s.timers + 1,
                   acquired := s.acquired ++ [id] } := by
        simp [waitStep, hle]
      have hqe : s.queue = [] := by
        by_contra hq
        exact hle (Nat.le_of_eq (h3 hq).symm)
      obtain ⟨g1, g2, g3, g4⟩ := ih (waitStep maxC s id)
        (by rw [hw]; simpa using h1) (by rw [hw]; simpa using Nat.lt_of_not_le hle)
        (by rw [hw]; intro hq; exact absurd hqe hq)
      refine ⟨?_, g2, g3, g4⟩
      rw [g1, hw]
      simp [hqe]

/-- Helper: with enough fuel, draining from a state whose queued callers
are backed by at least one pending timer resumes the whole queue in
order (appended to `acquired`) and ends with an empty queue and no
pending timers. -/
theorem drainAux_spec : ∀ (n : Nat) (s : RLState),
    s.timers + s.queue.length ≤ n →
    (¬ s.queue = [] → 1 ≤ s.timers) →
    (drainAux n s).acquired = s.acquired ++ s.queue ∧
      (drainAux n s).queue = [] ∧ (drainAux n s).timers = 0 := by
  intro n
  induction n with
  | zero =>
    intro s hm hq
    have ht : s.timers = 0 := by omega
    have hqe : s.queue = [] := by
      cases hqc : s.queue with
      | nil => rfl
      | cons a l =>
        have := hq (by simp [hqc])
        omega
    exact ⟨by simp [drainAux, hqe], by simp [drainAux, hqe], by simp [drainAux, ht]⟩
  | succ n ih =>
    intro s hm hq
    by_cases ht : s.timers = 0
    · have hqe : s.queue = [] := by
        cases hqc : s.queue with
        | nil => rfl
        | cons a l =>
          have := hq (by simp [hqc])
          omega
      exact ⟨by simp [drainAux, ht, hqe], by simp [drainAux, ht, hqe],
        by simp [drainAux, ht]⟩
    · have hstep : drainAux (n + 1) s = drainAux n (releaseStep s) := by
        simp [drainAux, ht]
      rw [hstep]
      cases hqc : s.queue with
      | nil =>
        have hr : releaseStep s =
            { s with running := s.running - 1, timers := s.timers - 1 } := by
          simp [releaseStep, hqc]
        obtain ⟨g1, g2, g3⟩ := ih (releaseStep s)
          (by rw [hr]; simp; omega) (by rw [hr]; simp [hqc])
        refine ⟨?_, g2, g3⟩
        rw [g1, hr]
        simp [hqc]
      | cons a l =>
        have hr : releaseStep s =
            { s with running := s.running - 1 + 1, timers := s.timers - 1 + 1,
                     queue := l, acquired := s.acquired ++ [a] } := by
          simp [releaseStep, hqc]
        obtain ⟨g1, g2, g3⟩ := ih (releaseStep s)
          (by
            have hlen : s.queue.length = l.length + 1 := by rw [hqc]; rfl
            rw [hr]
            show s.timers - 1 + 1 + l.length ≤ n
            omega)
          (by
            rw [hr]
            show ¬ l = [] → 1 ≤ s.timers - 1 + 1
            intro _
            omega)
        refine ⟨?_, g2, g3⟩
        rw [g1, hr]
        simp [hqc]

/-- Claim C7 (amended, `maxConcurrent ≥ 1`): issuing
`maxConcurrent + k` acquisitions with zero processing time completes all
of them — the acquisition order is exactly the issue order (queued
callers are resumed first-in-first-out) and the queue empties; and after
any prefix of the issue phase — i.e. at any instant before the first
`interval` elapses, since no scheduled `release` has fired yet — at most
`maxConcurrent` acquisitions are outstanding.  (With
`maxConcurrent = 0` the code completes none; see the counterexample.) -/
theorem rateLimiter_fifo_completion (maxC k : Nat) (hmax : 1 ≤ maxC) :
    (runAll maxC (List.range (maxC + k))).acquired = List.range (maxC + k) ∧
    (runAll maxC (List.range (maxC + k))).queue = [] ∧
    ∀ n : Nat, (issueAll maxC ((List.range (maxC + k)).take n) rlInit).running ≤ maxC := by
  have hinit1 : rlInit.timers = rlInit.running := rfl
  have hinit2 : rlInit.running ≤ maxC := Nat.zero_le _
  have hinit3 : ¬ rlInit.queue = [] → rlInit.running = maxC := fun h => absurd rfl h
  obtain ⟨g1, g2, g3, g4⟩ := issueAll_invariant maxC (List.range (maxC + k))
    rlInit hinit1 hinit2 hinit3
  set s2 := issueAll maxC (List.range (maxC + k)) rlInit with hs2
  have hpre : ¬ s2.queue = [] → 1 ≤ s2.timers := by
    intro hq
    rw [g2, g4 hq]
    exact hmax
  obtain ⟨d1, d2, d3⟩ := drainAux_spec (s2.timers + s2.queue.length) s2 (Nat.le_refl _) hpre
  refine ⟨?_, d2, ?_⟩
  · show (drainAux (s2.timers + s2.queue.length) s2).acquired = _
    rw [d1]
    simpa [rlInit] using g1
  · intro n
    exact (issueAll_invariant maxC ((List.range (maxC + k)).take n)
      rlInit hinit1 hinit2 hinit3).2.2.1

theorem rateLimiter_fifo_completion_witness :
    (runAll 2 (List.range (2 + 3))).acquired = List.range (2 + 3) ∧
    (runAll 2 (List.range (2 + 3))).queue = [] ∧
    (issueAll 2 ((List.range (2 + 3)).take 3) rlInit).running ≤ 2 := by
  have h := rateLimiter_fifo_completion 2 3 (by decide)
  exact ⟨h.1, h.2.1, h.2.2 3⟩

/-- Claim C7 counterexample: with `maxConcurrent = 0` and `k = 1`, the
single `wait()` caller is queued and no `release` is ever scheduled, so
the acquisition never completes — the claim's "for every maxConcurrent
... eventually completes all of them" fails at `maxConcurrent = 0`. -/
theorem rateLimiter_zero_max_starves :
    (runAll 0 (List.range (0 + 1))).acquired = [] ∧
    (runAll 0 (List.range (0 + 1))).queue = [0] ∧
    (runAll 0 (List.range (0 + 1))).timers = 0 := by
  exact ⟨rfl, rfl, rfl⟩

/-! ### Grouping view: characterization of `groupTasksByProject` -/

/-- Helper: lookup after one grouping insertion. -/
theorem lookupG_addToGroup (m : List (String × List Task)) (k : String)
    (t : Task) (k2 : String) :
    lookupG (addToGroup m k t) k2 =
      if k = k2 then some (((lookupG m k).getD []) ++ [t]) else lookupG m k2 := by
  induction m with
  | nil =>
    by_cases h : k = k2 <;> simp [addToGroup, lookupG, h]
  | cons e rest ih =>
    obtain ⟨k0, l⟩ := e
    by_cases h0 : k0 = k
    · subst h0
      by_cases h2 : k0 = k2 <;> simp [addToGroup, lookupG, h2]
    · have hm : lookupG ((k0, l) :: rest) k = lookupG rest k := by
        simp [lookupG, h0]
      by_cases h2 : k0 = k2
      · subst h2
        have hne : ¬ k = k0 := fun h => h0 h.symm
        simp [addToGroup, lookupG, h0, hne]
      · simp [addToGroup, lookupG, h0, h2, ih, hm]

/-- How a bucket combines with the tasks a fold appends to it. -/
def combineG (o : Option (List Task)) (f : List Task) : Option (List Task) :=
  match o with
  | some l => some (l ++ f)
  | none => if f = [] then none else some f

/-- Helper: the grouping fold, over any accumulator, extends the bucket
of each key by exactly the tasks whose project key matches, in order. -/
theorem lookupG_group_foldl (ts : List Task) :
    ∀ (m : List (String × List Task)) (k : String),
      lookupG (ts.foldl (fun m2 t => addToGroup m2 (projectKey t) t) m) k
        = combineG (lookupG m k) (ts.filter (fun t => decide (projectKey t = k))) := by
  induction ts with
  | nil =>
    intro m k
    cases h : lookupG m k <;> simp [combineG, h]
  | cons t ts ih =>
    intro m k
    have hstep : (t :: ts).foldl (fun m2 t2 => addToGroup m2 (projectKey t2) t2) m
        = ts.foldl (fun m2 t2 => addToGroup m2 (projectKey t2) t2)
            (addToGroup m (projectKey t) t) := rfl
    rw [hstep, ih, lookupG_addToGroup, List.filter_cons]
    by_cases hpk : projectKey t = k
    · rw [if_pos hpk]
      rw [if_pos (by simp [hpk])]
      cases h : lookupG m k with
      | some l => simp [combineG, h, hpk]
      | none => simp [combineG, h, hpk]
    · rw [if_neg hpk]
      rw [if_neg (by simp [hpk])]

/-- Helper: the bucket of key `k` in the grouping view is exactly the
filter of the accumulated tasks by project key (and exists exactly when
that filter is nonempty). -/
theorem lookupG_groupTasksByProject (ts : List Task) (k : String) :
    lookupG (groupTasksByProject ts) k =
      if ts.filter (fun t => decide (projectKey t = k)) = [] then none
      else some (ts.filter (fun t => decide (projectKey t = k))) := by
  have h := lookupG_group_foldl ts [] k
  simpa [groupTasksByProject, lookupG, combineG] using h

/-- Helper: keys of the grouping after one insertion. -/
theorem keys_addToGroup (m : List (String × List Task)) (k : String) (t : Task) :
    (addToGroup m k t).map Prod.fst =
      if (lookupG m k).isSome then m.map Prod.fst else m.map Prod.fst ++ [k] := by
  induction m with
  | nil => simp [addToGroup, lookupG]
  | cons e rest ih =>
    obtain ⟨k0, l⟩ := e
    by_cases h0 : k0 = k
    · subst h0
      simp [addToGroup, lookupG]
    · have hm : lookupG ((k0, l) :: rest) k = lookupG rest k := by
        simp [lookupG, h0]
      rw [hm]
      cases h : (lookupG rest k).isSome <;> simp [addToGroup, h0, ih, h]

/-- Helper: an absent key is not among the map's keys. -/
theorem not_mem_keys_of_lookupG_none {β : Type u} (m : List (String × β))
    (k : String) (h : lookupG m k = none) : ¬ k ∈ m.map Prod.fst := by
  induction m with
  | nil => simp
  | cons e rest ih =>
    obtain ⟨k0, w⟩ := e
    by_cases h0 : k0 = k
    · subst h0; simp [lookupG] at h
    · have hm : lookupG ((k0, w) :: rest) k = lookupG rest k := by
        simp [lookupG, h0]
      rw [hm] at h
      simp only [List.map_cons, List.mem_cons]
      rintro (h1 | h1)
      · exact h0 h1.symm
      · exact ih h h1

/-- Helper: the grouping view never repeats a project key. -/
theorem nodup_keys_groupTasksByProject (ts : List Task) :
    ((groupTasksByProject ts).map Prod.fst).Nodup := by
  suffices hgen : ∀ m : List (String × List Task), (m.map Prod.fst).Nodup →
      (((ts.foldl (fun m2 t => addToGroup m2 (projectKey t) t) m)).map Prod.fst).Nodup by
    exact hgen [] (by simp)
  induction ts with
  | nil => intro m hm; exact hm
  | cons t ts ih =>
    intro m hm
    apply ih
    rw [keys_addToGroup]
    cases h : (lookupG m (projectKey t)).isSome with
    | true => exact hm
    | false =>
      have hnone : lookupG m (projectKey t) = none := by
        cases h2 : lookupG m (projectKey t)
        · rfl
        · rw [h2] at h; simp at h
      have hnm := not_mem_keys_of_lookupG_none m (projectKey t) hnone
      simp [List.nodup_append, hm, hnm]

/-- Helper: every node a project-node mapper emits is labeled with a key
of the grouping. -/
theorem label_mem_of_mem_filterMap
    (f : String → List Task → Option TaskTreeItem)
    (hf : ∀ k l i, f k l = some i → i.label = k)
    (groups : List (String × List Task)) (i : TaskTreeItem)
    (hi : i ∈ groups.filterMap (fun g => f g.1 g.2)) :
    i.label ∈ groups.map Prod.fst := by
  rw [List.mem_filterMap] at hi
  obtain ⟨g, hg, hfg⟩ := hi
  rw [hf g.1 g.2 i hfg]
  exact List.mem_map_of_mem Prod.fst hg

/-- Helper: among the emitted project nodes, those labeled `p` are
exactly the image of the bucket of `p` (the keys being distinct). -/
theorem filter_label_filterMap
    (f : String → List Task → Option TaskTreeItem)
    (hf : ∀ k l i, f k l = some i → i.label = k)
    (groups : List (String × List Task))
    (hnd : (groups.map Prod.fst).Nodup) (p : String) :
    (groups.filterMap (fun g => f g.1 g.2)).filter (fun i => decide (i.label = p)) =
      match lookupG groups p with
      | some l => (f p l).toList
      | none => [] := by
  induction groups with
  | nil => simp [lookupG]
  | cons g rest ih =>
    obtain ⟨k, l⟩ := g
    have hk_rest : ¬ k ∈ rest.map Prod.fst := by
      simp only [List.map_cons, List.nodup_cons] at hnd
      exact hnd.1
    have hnd_rest : (rest.map Prod.fst).Nodup := by
      simp only [List.map_cons, List.nodup_cons] at hnd
      exact hnd.2
    have hrest := ih hnd_rest
    rw [List.filterMap_cons]
    cases hfk : f k l with
    | none =>
      by_cases hkp : k = p
      · subst hkp
        have hrest_nil : (rest.filterMap (fun g => f g.1 g.2)).filter
            (fun i => decide (i.label = k)) = [] := by
          rw [List.filter_eq_nil_iff]
          intro i hi
          simp only [decide_eq_true_eq]
          intro hlab
          exact hk_rest (hlab ▸ label_mem_of_mem_filterMap f hf rest i hi)
        rw [hrest_nil]
        simp [lookupG, hfk]
      · have hl : lookupG ((k, l) :: rest) p = lookupG rest p := by
          simp [lookupG, hkp]
        rw [hl, ← hrest]
    | some i0 =>
      have hlab := hf k l i0 hfk
      by_cases hkp : k = p
      · subst hkp
        have hrest_nil : (rest.filterMap (fun g => f g.1 g.2)).filter
            (fun i => decide (i.label = k)) = [] := by
          rw [List.filter_eq_nil_iff]
          intro i hi
          simp only [decide_eq_true_eq]
          intro hlab2
          exact hk_rest (hlab2 ▸ label_mem_of_mem_filterMap f hf rest i hi)
        rw [List.filter_cons, if_pos (by simp [hlab]), hrest_nil]
        simp [lookupG, hfk]
      · rw [List.filter_cons, if_neg (by simp [hlab, hkp])]
        have hl : lookupG ((k, l) :: rest) p = lookupG rest p := by
          simp [lookupG, hkp]
        rw [hl, ← hrest]

/-- Helper: nodes the open mapper emits carry the group key as label. -/
theorem openMapper_label (k : String) (l : List Task) (i : TaskTreeItem)
    (h : openMapper k l = some i) : i.label = k := by
  unfold openMapper at h
  split at h
  · cases h; rfl
  · exact absurd h (by simp)

/-- Helper: nodes the completed mapper emits carry the group key as
label. -/
theorem completedMapper_label (k : String) (l : List Task) (i : TaskTreeItem)
    (h : completedMapper k l = some i) : i.label = k := by
  unfold completedMapper at h
  split at h
  · cases h; rfl
  · exact absurd h (by simp)

/-- Example tasks of the claim: an `Open` and a `Closed` task of project
`A`, and an `Open` task with no project. -/
def projA : Project := ⟨"p1", "A"⟩

def taskOpenA : Task := ⟨"t1", "Task One", "e1", "el1", .Open, some projA⟩

def taskClosedA : Task := ⟨"t2", "Task Two", "e2", "el2", .Closed, some projA⟩

def taskOpenNoProj : Task := ⟨"t3", "Task Three", "e3", "el3", .Open, none⟩

def exampleTasks : List Task := [taskOpenA, taskClosedA, taskOpenNoProj]

/-- Claim C1 (amended): the grouping computation of `createTreeItems`
(reachable only after "load more", since expanding a category node
returns `[]` — see the counterexample) emits, in its "Open" (resp.
"Completed") section, exactly one project node per project having at
least one task of that status, labeled with the project key (sentinel
`Ungrouped`) and the count of matching tasks, and no node for a project
with zero tasks in that status; on the example accumulation the open
section is exactly `A (1 open)`, `Ungrouped (1 open)` and the completed
section exactly `A (1 completed)`. -/
theorem createTreeItems_project_nodes_by_status :
    (∀ (tasks : List Task) (p : String),
      (openProjectNodes (groupTasksByProject tasks)).filter
          (fun i => decide (i.label = p)) =
        (if ((tasks.filter (fun t => decide (projectKey t = p))).filter
              (fun t => decide (t.status = TaskStatus.Open))).length = 0 then []
         else [openProjectItem p
            ((tasks.filter (fun t => decide (projectKey t = p))).filter
              (fun t => decide (t.status = TaskStatus.Open))).length])) ∧
    (∀ (tasks : List Task) (p : String),
      (completedProjectNodes (groupTasksByProject tasks)).filter
          (fun i => decide (i.label = p)) =
        (if ((tasks.filter (fun t => decide (projectKey t = p))).filter
              (fun t => decide (t.status = TaskStatus.Closed))).length = 0 then []
         else [completedProjectItem p
            ((tasks.filter (fun t => decide (projectKey t = p))).filter
              (fun t => decide (t.status = TaskStatus.Closed))).length])) ∧
    openProjectNodes (groupTasksByProject exampleTasks) =
      [openProjectItem "A" 1, openProjectItem "Ungrouped" 1] ∧
    completedProjectNodes (groupTasksByProject exampleTasks) =
      [completedProjectItem "A" 1] := by
  refine ⟨?_, ?_, rfl, rfl⟩
  · intro tasks p
    show (List.filterMap (fun g => openMapper g.1 g.2) (groupTasksByProject tasks)).filter
        (fun i => decide (i.label = p)) = _
    rw [filter_label_filterMap openMapper openMapper_label
      (groupTasksByProject tasks) (nodup_keys_groupTasksByProject tasks) p,
      lookupG_groupTasksByProject]
    by_cases hnil : tasks.filter (fun t => decide (projectKey t = p)) = []
    · rw [if_pos hnil]
      have hz : ((tasks.filter (fun t => decide (projectKey t = p))).filter
          (fun t => decide (t.status = TaskStatus.Open))).length = 0 := by
        rw [hnil]; rfl
      rw [if_pos hz]
    · rw [if_neg hnil]
      simp only [openMapper]
      set n := ((tasks.filter (fun t => decide (projectKey t = p))).filter
          (fun t => decide (t.status = TaskStatus.Open))).length with hn
      rcases Nat.eq_zero_or_pos n with hz | hpos
      · have hnlt : ¬ 0 < n := by omega
        rw [if_neg hnlt, if_pos hz]
        rfl
      · have hnz : ¬ n = 0 := by omega
        rw [if_pos hpos, if_neg hnz]
        rfl
  · intro tasks p
    show (List.filterMap (fun g => completedMapper g.1 g.2) (groupTasksByProject tasks)).filter
        (fun i => decide (i.label = p)) = _
    rw [filter_label_filterMap completedMapper completedMapper_label
      (groupTasksByProject tasks) (nodup_keys_groupTasksByProject tasks) p,
      lookupG_groupTasksByProject]
    by_cases hnil : tasks.filter (fun t => decide (projectKey t = p)) = []
    · rw [if_pos hnil]
      have hz : ((tasks.filter (fun t => decide (projectKey t = p))).filter
          (fun t => decide (t.status = TaskStatus.Closed))).length = 0 := by
        rw [hnil]; rfl
      rw [if_pos hz]
    · rw [if_neg hnil]
      simp only [completedMapper]
      set n := ((tasks.filter (fun t => decide (projectKey t = p))).filter
          (fun t => decide (t.status = TaskStatus.Closed))).length with hn
      rcases Nat.eq_zero_or_pos n with hz | hpos
      · have hnlt : ¬ 0 < n := by omega
        rw [if_neg hnlt, if_pos hz]
        rfl
      · have hnz : ¬ n = 0 := by omega
        rw [if_pos hpos, if_neg hnz]
        rfl

/-- Claim C1 counterexample: with the example accumulation in the
`'root'` bucket, expanding the "Open Tasks" (resp. "Completed Tasks")
category node returns the empty list — `getChildren` has no `'category'`
branch — and not the claimed project nodes. -/
theorem category_expansion_returns_empty :
    (getChildren ⟨[("root", exampleTasks)], []⟩
      (mkTreeItem "Open Tasks" "open-tasks" "" "" .collapsed "category" none)
      (.ok ⟨[], none⟩)).items = [] ∧
    (getChildren ⟨[("root", exampleTasks)], []⟩
      (mkTreeItem "Completed Tasks" "completed-tasks" "" "" .collapsed "category" none)
      (.ok ⟨[], none⟩)).items = [] ∧
    ¬ ([] : List TaskTreeItem) =
      [openProjectItem "A" 1, openProjectItem "Ungrouped" 1] := by
  exact ⟨rfl, rfl, by decide⟩

/-! ### "Load more" pagination -/

/-- Helper: every node of the open loop is tagged `'project'`. -/
theorem openProjectNodes_contextValue (groups : List (String × List Task))
    (i : TaskTreeItem) (hi : i ∈ openProjectNodes groups) :
    i.contextValue = "project" := by
  unfold openProjectNodes at hi
  rw [List.mem_filterMap] at hi
  obtain ⟨g, _, hfg⟩ := hi
  unfold openMapper at hfg
  split at hfg
  · cases hfg; rfl
  · exact absurd hfg (by simp)

/-- Helper: every node of the completed loop is tagged `'project'`. -/
theorem completedProjectNodes_contextValue (groups : List (String × List Task))
    (i : TaskTreeItem) (hi : i ∈ completedProjectNodes groups) :
    i.contextValue = "project" := by
  unfold completedProjectNodes at hi
  rw [List.mem_filterMap] at hi
  obtain ⟨g, _, hfg⟩ := hi
  unfold completedMapper at hfg
  split at hfg
  · cases hfg; rfl
  · exact absurd hfg (by simp)

/-- Helper: with a next-page token present, the "Load More..." node is
the last sibling of the recomputed list. -/
theorem createTreeItems_getLast_of_token (st : ProviderState) (key : String)
    (h : containsG st.nextPageTokens key = true) :
    (createTreeItems st key).getLast? = some (loadMoreItem key) := by
  have heq : createTreeItems st key =
      (mkTreeItem "Open Tasks" "open-tasks" "" "" .expanded "category" none
        :: (openProjectNodes (groupTasksByProject ((lookupG st.taskCache key).getD []))
          ++ mkTreeItem "Completed Tasks" "completed-tasks" "" "" .collapsed "category" none
          :: completedProjectNodes (groupTasksByProject ((lookupG st.taskCache key).getD []))))
        ++ [loadMoreItem key] := by
    unfold createTreeItems
    rw [h]
    simp
  rw [heq, List.getLast?_concat]

/-- Helper: with no next-page token, no node of the recomputed list is
tagged `'loadMore'`. -/
theorem createTreeItems_no_loadMore (st : ProviderState) (key : String)
    (h : containsG st.nextPageTokens key = false) (i : TaskTreeItem)
    (hi : i ∈ createTreeItems st key) : ¬ i.contextValue = "loadMore" := by
  have heq : createTreeItems st key =
      mkTreeItem "Open Tasks" "open-tasks" "" "" .expanded "category" none
        :: (openProjectNodes (groupTasksByProject ((lookupG st.taskCache key).getD []))
          ++ mkTreeItem "Completed Tasks" "completed-tasks" "" "" .collapsed "category" none
          :: completedProjectNodes (groupTasksByProject ((lookupG st.taskCache key).getD []))) := by
    unfold createTreeItems
    rw [h]
    simp
  rw [heq] at hi
  simp only [List.mem_cons, List.mem_append] at hi
  rcases hi with hi | hi | hi | hi
  · rw [hi]; decide
  · rw [openProjectNodes_contextValue _ i hi]; decide
  · rw [hi]; decide
  · rw [completedProjectNodes_contextValue _ i hi]; decide

/-- Helper: the bucket after appending a page. -/
theorem bucket_after_cacheTasks (st : ProviderState) (key : String)
    (r : ApiResponse) :
    lookupG (cacheTasksAndUpdateNextPageToken st key r).taskCache key =
      some (((lookupG st.taskCache key).getD []) ++ r.data) := by
  unfold cacheTasksAndUpdateNextPageToken
  cases h : pagingAfter r with
  | some a =>
    by_cases ha : a = "" <;> simp [ha, lookupG_setG]
  | none => simp [lookupG_setG]

/-- Helper: the cursor after appending a page is the page's truthy
`after`, or removed. -/
theorem tokens_after_cacheTasks (st : ProviderState) (key : String)
    (r : ApiResponse) :
    lookupG (cacheTasksAndUpdateNextPageToken st key r).nextPageTokens key =
      effAfter r := by
  unfold cacheTasksAndUpdateNextPageToken effAfter
  cases h : pagingAfter r with
  | some a =>
    by_cases ha : a = "" <;> simp [ha, lookupG_setG, lookupG_delG]
  | none => simp [lookupG_delG]

/-- Claim C4 (amended): when the aggregator holds a (truthy) continuation
cursor for a key, activating "load more" fetches exactly one page,
appends that page's tasks to the bucket in order, replaces the cursor by
the new page's cursor (removing it when the page has none), and the
recomputed node list carries the "Load More..." node as last sibling
exactly when a cursor remains.  (The initial listing seeds neither
bucket nor cursor — see the counterexample — so this state must have
been seeded by a previous append.) -/
theorem loadMoreTasks_single_page_append (st : ProviderState) (key cursor : String)
    (page : ApiResponse)
    (hcur : lookupG st.nextPageTokens key = some cursor) (hne : ¬ cursor = "") :
    (loadMoreTasks st key (.ok page)).fetches = 1 ∧
    lookupG (loadMoreTasks st key (.ok page)).state.taskCache key =
      some (((lookupG st.taskCache key).getD []) ++ page.data) ∧
    lookupG (loadMoreTasks st key (.ok page)).state.nextPageTokens key = effAfter page ∧
    ((effAfter page).isSome = true →
      (loadMoreTasks st key (.ok page)).items.getLast? = some (loadMoreItem key)) ∧
    ((effAfter page).isSome = false →
      ∀ i, i ∈ (loadMoreTasks st key (.ok page)).items → ¬ i.contextValue = "loadMore") := by
  have heq : loadMoreTasks st key (.ok page) =
      ⟨createTreeItems (cacheTasksAndUpdateNextPageToken st key page) key,
       cacheTasksAndUpdateNextPageToken st key page, 1⟩ := by
    simp [loadMoreTasks, hcur, hne]
  rw [heq]
  have htok : containsG (cacheTasksAndUpdateNextPageToken st key page).nextPageTokens key
      = (effAfter page).isSome := by
    unfold containsG
    rw [tokens_after_cacheTasks]
  refine ⟨rfl, bucket_after_cacheTasks st key page, tokens_after_cacheTasks st key page,
    ?_, ?_⟩
  · intro hs
    exact createTreeItems_getLast_of_token _ key (by rw [htok, hs])
  · intro hs i hi
    exact createTreeItems_no_loadMore _ key (by rw [htok, hs]) i hi

/-- Five tasks for page P1 and three for page P2 of the claim's concrete
scenario. -/
def mkPlainTask (id : String) : Task := ⟨id, "task " ++ id, "", "", .Open, none⟩

def tasksP1 : List Task :=
  [mkPlainTask "a1", mkPlainTask "a2", mkPlainTask "a3", mkPlainTask "a4", mkPlainTask "a5"]

def tasksP2 : List Task := [mkPlainTask "b1", mkPlainTask "b2", mkPlainTask "b3"]

/-- Page P1: five items, cursor `"c1"`, server total 8. -/
def pageP1 : ApiResponse := ⟨tasksP1, some ⟨8, some "c1", none⟩⟩

/-- Page P2: three items, no cursor. -/
def pageP2 : ApiResponse := ⟨tasksP2, none⟩

/-- The provider state P1 would have seeded: bucket `root` holding P1's
tasks, cursor `"c1"`. -/
def stP1 : ProviderState := ⟨[("root", tasksP1)], [("root", "c1")]⟩

theorem loadMoreTasks_single_page_append_witness :
    (loadMoreTasks stP1 "root" (.ok pageP2)).fetches = 1 ∧
    lookupG (loadMoreTasks stP1 "root" (.ok pageP2)).state.taskCache "root" =
      some (tasksP1 ++ tasksP2) ∧
    ((tasksP1 ++ tasksP2) : List Task).length = 8 ∧
    lookupG (loadMoreTasks stP1 "root" (.ok pageP2)).state.nextPageTokens "root" = none := by
  have h := loadMoreTasks_single_page_append stP1 "root" "c1" pageP2 rfl (by decide)
  exact ⟨h.1, h.2.1, rfl, h.2.2.1⟩

/-- Claim C4 counterexample: the concrete scenario "listing then
activating load more once yields an accumulation of 8 items" fails —
`getRootItems` returns only the three category nodes and stores nothing
(it takes no state and returns none), so after the listing the provider
state is still the initial one: there is no "load more" node at all,
activating `loadMoreTasks` finds no cursor, fetches zero pages, and the
accumulation holds 0 items, not 8. -/
theorem listing_does_not_seed_accumulation :
    getRootItems (.ok pageP1) =
      [mkTreeItem "All Tasks" "all-tasks" "" "" .collapsed "category"
        (some ("(" ++ toString (8 : Nat) ++ " tasks)")),
       mkTreeItem "Open Tasks" "open-tasks" "" "" .collapsed "category" none,
       mkTreeItem "Completed Tasks" "completed-tasks" "" "" .collapsed "category" none] ∧
    ((getRootItems (.ok pageP1)).filter
      (fun i => decide (i.contextValue = "loadMore"))).length = 0 ∧
    (loadMoreTasks providerInit "root" (.ok pageP2)).fetches = 0 ∧
    (loadMoreTasks providerInit "root" (.ok pageP2)).state = providerInit ∧
    ((lookupG (loadMoreTasks providerInit "root" (.ok pageP2)).state.taskCache
      "root").getD []).length = 0 ∧
    ¬ ((lookupG (loadMoreTasks providerInit "root" (.ok pageP2)).state.taskCache
      "root").getD []).length = 8 := by
  exact ⟨rfl, rfl, rfl, rfl, rfl, by decide⟩

/-! ### Project-node expansion -/

/-- Claim C8 (amended): expanding a project node returns one leaf per
task of that project in the `'root'` bucket regardless of status — the
category under which the node was reached does not restrict the leaves;
each leaf's context tag reflects the task's own status. -/
theorem getTasksForProject_ignores_category :
    (∀ (st : ProviderState) (p : String),
      (getTasksForProject st p).length =
        (((lookupG st.taskCache "root").getD []).filter
          (fun t => decide (projectKey t = p))).length) ∧
    (∀ (st : ProviderState) (p : String) (t : Task),
      t ∈ (lookupG st.taskCache "root").getD [] → projectKey t = p →
        taskLeafItem t ∈ getTasksForProject st p) ∧
    (∀ t : Task, (taskLeafItem t).contextValue =
      if t.status = TaskStatus.Closed then "completedTask" else "openTask") := by
  refine ⟨?_, ?_, fun t => rfl⟩
  · intro st p
    unfold getTasksForProject
    rw [List.length_map]
  · intro st p t ht hp
    unfold getTasksForProject
    exact List.mem_map_of_mem taskLeafItem (by rw [List.mem_filter]; exact ⟨ht, by simp [hp]⟩)

/-- The `'root'` bucket holding one `Open` and one `Closed` task of
project `A`. -/
def stMixedA : ProviderState := ⟨[("root", [taskOpenA, taskClosedA])], []⟩

theorem getTasksForProject_ignores_category_witness :
    taskLeafItem taskClosedA ∈ getTasksForProject stMixedA "A" ∧
    (taskLeafItem taskClosedA).contextValue = "completedTask" := by
  have h := getTasksForProject_ignores_category
  refine ⟨h.2.1 stMixedA "A" taskClosedA (by decide) rfl, ?_⟩
  rw [h.2.2 taskClosedA]
  decide

/-- Claim C8 counterexample: for project `A` holding one `Open` and one
`Closed` task, expanding the project node (however it was reached)
returns two leaves — an `openTask` and a `completedTask` — not only the
leaves of the category's status (which would be a single leaf). -/
theorem getTasksForProject_mixed_status_leaves :
    (getTasksForProject stMixedA "A").map TaskTreeItem.contextValue =
      ["openTask", "completedTask"] ∧
    (getTasksForProject stMixedA "A").length = 2 ∧
    ¬ (getTasksForProject stMixedA "A").length = 1 := by
  exact ⟨rfl, rfl, by decide⟩

end OpenMetadata
